import Mathlib

/-!
Shallow embedding of the dhatless report tool (main.go).

The Go program decodes a DHAT JSON report, optionally filters allocation
sites by keywords found in their resolved frame stacks, and renders the
remaining sites as text or HTML.  Pure functions of the source are
translated into Lean functions; the fallible slice accesses of the source
(frame-table indexing and the access of the second field of a split) are
modelled with Except.
-/

namespace Dhatless

/-- One program point (allocation site), mirroring the Go struct
ProgramPoint of main.go.  Field names follow the Go field names. -/
structure ProgramPoint where
  totalBytes : Int
  totalBlocks : Int
  totalLifetimesOfBlocks : Int
  maxBytes : Int
  maxBlocks : Int
  bytesAtTgmax : Int
  blocksAtTgmax : Int
  bytesAtTend : Int
  blocksAtTend : Int
  readsOfBlocks : Int
  writesOfBlocks : Int
  blockAccesses : List Int
  frames : List Int
  deriving DecidableEq

/-- The decoded DHAT report, mirroring the Go struct Report of main.go. -/
structure Report where
  version : Int
  invocationMode : String
  stackFrameVerb : String
  blockLifetimesRecorded : Bool
  blockAccessesRecorded : Bool
  byteUnit : String
  bytesUnit : String
  blocksUnit : String
  timeUnit : String
  milTimeUnit : String
  shortLivedTimeThreshold : Int
  cmd : String
  pid : Int
  timeAtEnd : Int
  timeAtGlobalMax : Int
  programPoints : List ProgramPoint
  framesTable : List String
  deriving DecidableEq

/-- The two ways frame resolution can fail: the frame index is out of
bounds for the frame table, or the table entry lacks a second field when
split on the separator.  In the Go source both surface as runtime panics
of the slice accesses in Report.GetFrame / Report.ProgramPointHasFrame. -/
inductive FrameError where
  | indexError (i : Int) : FrameError
  | formatError (entry : String) : FrameError
  deriving DecidableEq

/-- Substring matching helper: does the haystack start with the needle?
(Char-list level; on valid UTF-8 this agrees with the byte-level test of
Go strings.Contains.) -/
def matchesAt : List Char → List Char → Bool
  | [], _ => true
  | _ :: _, [] => false
  | a :: as, b :: bs => a = b && matchesAt as bs

/-- Does the needle occur contiguously anywhere in the haystack? -/
def containsSub (needle : List Char) : List Char → Bool
  | [] => matchesAt needle []
  | c :: rest => matchesAt needle (c :: rest) || containsSub needle rest

/-- Embedding of Go strings.Contains: case-sensitive, unanchored
substring containment. -/
def strContains (hay sub : String) : Bool :=
  containsSub sub.data hay.data

/-- Equality of Except values is decidable when both components are;
needed to evaluate the embedded fallible functions on concrete input. -/
instance {ε α : Type} [DecidableEq ε] [DecidableEq α] : DecidableEq (Except ε α) := fun x y =>
  match x, y with
  | Except.ok a, Except.ok b =>
    if h : a = b then Decidable.isTrue (by rw [h])
    else Decidable.isFalse (by intro hc; injection hc; contradiction)
  | Except.error e₁, Except.error e₂ =>
    if h : e₁ = e₂ then Decidable.isTrue (by rw [h])
    else Decidable.isFalse (by intro hc; injection hc; contradiction)
  | Except.ok _, Except.error _ => Decidable.isFalse (by intro hc; injection hc)
  | Except.error _, Except.ok _ => Decidable.isFalse (by intro hc; injection hc)

/-- Embedding of strings.Split(s, sep) at the only separator the source
splits frame-table entries on, the literal two-character string of a
colon and a space: scan left to right, cut at each occurrence.
Structurally recursive so that concrete inputs evaluate by kernel
reduction. -/
def splitColonSpace : List Char → List (List Char)
  | [] => [[]]
  | ':' :: ' ' :: rest => [] :: splitColonSpace rest
  | c :: rest =>
    match splitColonSpace rest with
    | [] => [[c]]
    | w :: ws => (c :: w) :: ws

/-- The fields of a frame-table entry: strings.Split(entry, ": "). -/
def splitFrameEntry (entry : String) : List String :=
  (splitColonSpace entry.data).map String.mk

/-- Embedding of Report.GetFrame: strings.Split(r.FramesTable[i], ": ")[1].
The two slice accesses that can panic in Go are modelled as errors:
an out-of-bounds table index and a split with no second element. -/
def getFrame (r : Report) (f : Int) : Except FrameError String :=
  if f < 0 then Except.error (FrameError.indexError f)
  else
    match r.framesTable[f.toNat]? with
    | none => Except.error (FrameError.indexError f)
    | some entry =>
      match splitFrameEntry entry with
      | _ :: sym :: _ => Except.ok sym
      | _ => Except.error (FrameError.formatError entry)

/-- The resolved symbol of a frame, defaulting to "" on error.  Used only
to state pure characterisations of the fallible functions; the theorems
always carry the hypothesis that resolution succeeds. -/
def resolveD (r : Report) (f : Int) : String :=
  match getFrame r f with
  | Except.ok s => s
  | Except.error _ => ""

/-- Does resolution of frame f succeed? -/
def resolvesOk (r : Report) (f : Int) : Bool :=
  match getFrame r f with
  | Except.ok _ => true
  | Except.error _ => false

/-- The loop body of Report.ProgramPointHasFrame: walk the frame list in
order, resolve each frame, return true on the first frame whose symbol
contains the keyword. -/
def hasFrameAux (r : Report) (s : String) : List Int → Except FrameError Bool
  | [] => Except.ok false
  | f :: rest =>
    match getFrame r f with
    | Except.error e => Except.error e
    | Except.ok sym =>
      if strContains sym s then Except.ok true else hasFrameAux r s rest

/-- Embedding of Report.ProgramPointHasFrame. -/
def programPointHasFrame (r : Report) (i : Nat) (s : String) : Except FrameError Bool :=
  match r.programPoints[i]? with
  | some pp => hasFrameAux r s pp.frames
  | none => Except.error (FrameError.indexError (Int.ofNat i))

/-- Embedding of shouldIgnore: walk the ignore list in order, return true
on the first keyword found in some frame of the site. -/
def shouldIgnore (r : Report) (i : Nat) : List String → Except FrameError Bool
  | [] => Except.ok false
  | s :: rest =>
    match programPointHasFrame r i s with
    | Except.error e => Except.error e
    | Except.ok true => Except.ok true
    | Except.ok false => shouldIgnore r i rest

/-- Resolve a list of frame indices in order, failing on the first frame
that does not resolve. -/
def mapFrames (r : Report) : List Int → Except FrameError (List String)
  | [] => Except.ok []
  | f :: rest =>
    match getFrame r f with
    | Except.error e => Except.error e
    | Except.ok sym =>
      match mapFrames r rest with
      | Except.error e => Except.error e
      | Except.ok syms => Except.ok (sym :: syms)

/-- Embedding of Go html.EscapeString on one character. -/
def escapeChar (c : Char) : String :=
  if c = '&' then "&amp;"
  else if c = '\'' then "&#39;"
  else if c = '<' then "&lt;"
  else if c = '>' then "&gt;"
  else if c = '"' then "&#34;"
  else String.singleton c

/-- Embedding of Go html.EscapeString. -/
def escapeString (s : String) : String :=
  String.join (s.data.map escapeChar)

/-- The header and stats lines printed for one non-ignored site
(main.go lines 135-147). -/
def siteHeaderLines (htmlMode : Bool) (allocCount : Nat) (pp : ProgramPoint) : List String :=
  (if htmlMode then
    ["<details><summary>Allocation #" ++ toString allocCount ++ "</summary><br><p>"]
  else
    ["\n==== Allocation #" ++ toString allocCount ++ " ===="]) ++
  [toString pp.totalBytes ++ " bytes in " ++ toString pp.totalBlocks ++ " blocks"] ++
  (if htmlMode then ["</p><pre>"] else [])

/-- The closing lines printed after a site's frame stack. -/
def siteFooterLines (htmlMode : Bool) : List String :=
  if htmlMode then ["</pre></details><br>"] else []

/-- Render one non-ignored site: header and stats, then the frame stack
iterated from the last index to the first (main.go lines 149-155),
escaped in HTML mode, then the closing lines. -/
def renderSite (r : Report) (htmlMode : Bool) (allocCount : Nat) (pp : ProgramPoint) :
    Except FrameError (List String) :=
  match mapFrames r pp.frames.reverse with
  | Except.error e => Except.error e
  | Except.ok syms =>
    Except.ok (siteHeaderLines htmlMode allocCount pp ++
      (if htmlMode then syms.map escapeString else syms) ++
      siteFooterLines htmlMode)

/-- The main rendering loop of mainErr (lines 128-160) over the indexed
program points, threading the running allocCount, which is incremented
only for sites that are not ignored. -/
def renderSitesAux (r : Report) (htmlMode : Bool) (ks : List String) :
    Nat → List (Nat × ProgramPoint) → Except FrameError (List String)
  | _, [] => Except.ok []
  | allocCount, (i, pp) :: rest =>
    match shouldIgnore r i ks with
    | Except.error e => Except.error e
    | Except.ok true => renderSitesAux r htmlMode ks allocCount rest
    | Except.ok false =>
      match renderSite r htmlMode allocCount pp with
      | Except.error e => Except.error e
      | Except.ok lines =>
        match renderSitesAux r htmlMode ks (allocCount + 1) rest with
        | Except.error e => Except.error e
        | Except.ok restLines => Except.ok (lines ++ restLines)

/-- All site output of a run: the loop started with allocCount = 1 over
the enumerated program points. -/
def renderSites (r : Report) (htmlMode : Bool) (ks : List String) :
    Except FrameError (List String) :=
  renderSitesAux r htmlMode ks 1 r.programPoints.enum

/-- The static HTML preamble of main.go (const htmlHeader). -/
def htmlHeader : String :=
  "\n<!DOCTYPE html>\n\n<html lang=\"en\">\n\n<head>\n\n<meta charset=\"utf-8\">\n<meta name=\"viewport\" content=\"width=device-width, initial-scale=1.0\">\n\n<style>\nbody \x7b\nfont-size: 15px;\n\x7d\npre \x7b\noverflow-x: auto;\n\x7d\n\ndetails > summary \x7b\n  padding: 2px 6px;\n  width: 15em;\n  background-color: #ddd;\n  border: none;\n  box-shadow: 3px 3px 4px black;\n  cursor: pointer;\n\x7d\n\npre \x7b\n  border-radius: 0 0 10px 10px;\n  background-color: #ddd;\n  padding: 2px 6px;\n  margin: 0;\n  box-shadow: 3px 3px 4px black;\n\x7d\n\ndetails[open] > summary \x7b\n  background-color: #ccf;\n\x7d\n\nbutton \x7b\n  background-color: #ddd;\n  font-size: 15px;\n  width: 10%;\n\x7d\n\n</style>\n\n<title>DHAT allocations report</title>\n\n</head>\n\n<body>\n\n<button id=\"btn-openall\">Open All</button>\n<button id=\"btn-closeall\">Close All</button>\n<hr>\n\n<script>\n\ndocument.getElementById(\"btn-openall\").addEventListener(\"click\", function(event) \x7b\n  const elements = document.querySelectorAll(\x27details\x27);\n  elements.forEach(element => \x7b\n    element.open = true;\n  \x7d);\n\x7d);\n\ndocument.getElementById(\"btn-closeall\").addEventListener(\"click\", function(event) \x7b\n  const elements = document.querySelectorAll(\x27details\x27);\n  elements.forEach(element => \x7b\n    element.open = false;\n  \x7d);\n\x7d);\n\n</script>\n\n"

/-- The closing tags printed at the end of an HTML run. -/
def htmlFooter : String :=
  "\n</body>\n</html>\n"

/-- The metadata lines printed before the sites (main.go lines 111-126). -/
def headerLines (r : Report) (htmlMode : Bool) : List String :=
  (if htmlMode then [htmlHeader, "<br><pre>"] else []) ++
  ["Command: " ++ r.cmd,
   "PID: " ++ toString r.pid,
   "Mode: " ++ r.invocationMode,
   "t-end: " ++ toString r.timeAtEnd ++ " " ++ r.timeUnit] ++
  (if htmlMode then ["</pre><br><hr><br>"] else [])

/-- Failures of a run after the report has been decoded. -/
inductive RunError where
  | unsupportedVersion (found required : Int) : RunError
  | frame (e : FrameError) : RunError
  deriving DecidableEq

/-- The only supported DHAT file version (const dhatVersion in mainErr). -/
def dhatVersion : Int := 2

/-- The message of a run error.  The unsupportedVersion case mirrors the
format string of main.go lines 105-108; the frame cases stand for the Go
runtime panic texts, whose exact wording no theorem relies on. -/
def runErrorMessage : RunError → String
  | RunError.unsupportedVersion found required =>
    "DHAT report version " ++ toString found ++
      " is not supported, only version " ++ toString required ++ " is supported"
  | RunError.frame (FrameError.indexError i) =>
    "index out of range: " ++ toString i
  | RunError.frame (FrameError.formatError entry) =>
    "malformed frame table entry: " ++ entry

/-- The run on a decoded report (mainErr from line 103 on): version check
first, then header lines, the filtered sites, and the HTML footer.  An
error yields no output lines at all when it is the version check that
fails, since the check precedes every print. -/
def runReport (r : Report) (htmlMode : Bool) (ks : List String) :
    Except RunError (List String) :=
  if r.version ≠ dhatVersion then
    Except.error (RunError.unsupportedVersion r.version dhatVersion)
  else
    match renderSites r htmlMode ks with
    | Except.error e => Except.error (RunError.frame e)
    | Except.ok siteLines =>
      Except.ok (headerLines r htmlMode ++ siteLines ++
        (if htmlMode then [htmlFooter] else []))

/-- Is the character one of those trimmed by parseIgnoreFile
(strings.Trim(line, " \t"))? -/
def isCutChar (c : Char) : Bool :=
  c = ' ' || c = '\t'

/-- Embedding of strings.Trim(line, " \t"): drop the cut characters from
both ends of the line. -/
def trimLine (s : String) : String :=
  String.mk (((s.data.dropWhile isCutChar).reverse.dropWhile isCutChar).reverse)

/-- Does the line start with the comment character, as the Go test
line[0] ==.  Only consulted after the emptiness check, as in the
source. -/
def firstCharIsHash (s : String) : Bool :=
  match s.data with
  | [] => false
  | c :: _ => c = '#'

/-- The line loop of parseIgnoreFile: trim each line, skip lines that are
empty after trimming and lines whose first character is '#', keep the
rest in order. -/
def ignoreLinesLoop : List String → List String
  | [] => []
  | l :: rest =>
    let line := trimLine l
    if line = "" then ignoreLinesLoop rest
    else if firstCharIsHash line then ignoreLinesLoop rest
    else line :: ignoreLinesLoop rest

/-- Embedding of strings.Split(content, sep) at the newline separator
used on the ignore file. -/
def splitLines : List Char → List (List Char)
  | [] => [[]]
  | '\n' :: rest => [] :: splitLines rest
  | c :: rest =>
    match splitLines rest with
    | [] => [[c]]
    | w :: ws => (c :: w) :: ws

/-- Embedding of parseIgnoreFile.  The file system is abstracted away:
the content parameter stands for the bytes os.ReadFile returns, and is
never consulted when the path is empty, since the Go function returns
nil before reading. -/
def parseIgnoreFile (file : String) (content : String) : List String :=
  if file = "" then []
  else ignoreLinesLoop ((splitLines content.data).map String.mk)

/-- Rejoin split fields with the separator: the right inverse of
splitColonSpace used to state what the text after the first separator
is. -/
def joinColonSpace : List String → String
  | [] => ""
  | [s] => s
  | s :: rest => s ++ ": " ++ joinColonSpace rest

/-- Frame resolution as the spec words it: the entire substring of the
entry following the first occurrence of the separator, later separators
included.  Stated only to compare the spec sentence with getFrame. -/
def specResolveFrame (entry : String) : String :=
  match splitFrameEntry entry with
  | _ :: rest => joinColonSpace rest
  | [] => ""

/-- Pure counterpart of shouldIgnore for a site whose frames all
resolve: some keyword occurs in some resolved frame. -/
def ppIgnored (r : Report) (pp : ProgramPoint) (ks : List String) : Bool :=
  ks.any fun k => pp.frames.any fun f => strContains (resolveD r f) k

/-- The frame lines a site emits: the resolved symbols in reverse frame
order, escaped in HTML mode. -/
def emittedFrames (r : Report) (htmlMode : Bool) (pp : ProgramPoint) : List String :=
  let syms := pp.frames.reverse.map (resolveD r)
  if htmlMode then syms.map escapeString else syms

/-- Pure counterpart of renderSite for a site whose frames all resolve. -/
def siteLinesD (r : Report) (htmlMode : Bool) (allocCount : Nat) (pp : ProgramPoint) :
    List String :=
  siteHeaderLines htmlMode allocCount pp ++ emittedFrames r htmlMode pp ++
    siteFooterLines htmlMode

/-- Every frame index of the site resolves. -/
def ppFramesOk (r : Report) (pp : ProgramPoint) : Bool :=
  pp.frames.all fun f => resolvesOk r f

/-- Every frame index of every site resolves: the well-formedness under
which a whole render succeeds. -/
def reportOk (r : Report) : Bool :=
  r.programPoints.all fun pp => ppFramesOk r pp

/-- The indexed sites that survive filtering. -/
def keptSites (r : Report) (ks : List String) (ps : List (Nat × ProgramPoint)) :
    List (Nat × ProgramPoint) :=
  ps.filter fun p => !(ppIgnored r p.2 ks)

/-- A report with every field at a neutral value; concrete reports of
the examples below override the fields they use. -/
def baseReport : Report where
  version := 2
  invocationMode := "heap"
  stackFrameVerb := "Allocated"
  blockLifetimesRecorded := false
  blockAccessesRecorded := false
  byteUnit := "byte"
  bytesUnit := "bytes"
  blocksUnit := "blocks"
  timeUnit := "instrs"
  milTimeUnit := "Minstr"
  shortLivedTimeThreshold := 0
  cmd := "prog"
  pid := 1
  timeAtEnd := 0
  timeAtGlobalMax := 0
  programPoints := []
  framesTable := []

/-! ### Example inputs used by the closed witness theorems -/

/-- A site allocating 100 bytes in 1 block with frame stack [0, 1]. -/
def ppMain : ProgramPoint :=
  ⟨100, 1, 0, 0, 0, 0, 0, 0, 0, 0, 0, [], [0, 1]⟩

/-- A site with an empty frame stack. -/
def ppNoFrames : ProgramPoint :=
  ⟨7, 2, 0, 0, 0, 0, 0, 0, 0, 0, 0, [], []⟩

/-- A site referring to frame-table entry 0. -/
def ppBad : ProgramPoint :=
  ⟨1, 1, 0, 0, 0, 0, 0, 0, 0, 0, 0, [], [0]⟩

/-- A well-formed two-frame report. -/
def reportA : Report :=
  { baseReport with
    programPoints := [ppMain, ppNoFrames]
    framesTable := ["at: main", "at: alloc"] }

/-- A report whose only frame-table entry lacks the separator. -/
def reportBad : Report :=
  { baseReport with
    programPoints := [ppBad]
    framesTable := ["nosep"] }

/-- A report whose frame-table entry holds the separator twice. -/
def reportCex : Report :=
  { baseReport with framesTable := ["x: a: b"] }

/-! ### Helper lemmas -/

theorem getFrame_eq_of_resolvesOk {r : Report} {f : Int} (h : resolvesOk r f = true) :
    getFrame r f = Except.ok (resolveD r f) := by
  cases hg : getFrame r f with
  | ok s => simp [resolveD, hg]
  | error e => simp [resolvesOk, hg] at h

theorem hasFrameAux_eq_any {r : Report} (s : String) (fs : List Int)
    (h : ∀ f ∈ fs, resolvesOk r f = true) :
    hasFrameAux r s fs = Except.ok (fs.any fun f => strContains (resolveD r f) s) := by
  induction fs with
  | nil => rfl
  | cons f rest ih =>
    have hf : resolvesOk r f = true := h f (List.mem_cons_self f rest)
    have hrest : ∀ g ∈ rest, resolvesOk r g = true :=
      fun g hg => h g (List.mem_cons_of_mem f hg)
    rw [hasFrameAux, getFrame_eq_of_resolvesOk hf]
    cases hc : strContains (resolveD r f) s with
    | true => simp [List.any_cons, hc]
    | false => simp [List.any_cons, hc, ih hrest]

theorem ppFramesOk_mem {r : Report} {pp : ProgramPoint} (hwf : ppFramesOk r pp = true) :
    ∀ f ∈ pp.frames, resolvesOk r f = true := by
  intro f hf
  exact List.all_eq_true.mp hwf f hf

theorem programPointHasFrame_eq_any {r : Report} {i : Nat} {pp : ProgramPoint}
    (hpp : r.programPoints[i]? = some pp) (hwf : ppFramesOk r pp = true) (s : String) :
    programPointHasFrame r i s =
      Except.ok (pp.frames.any fun f => strContains (resolveD r f) s) := by
  rw [programPointHasFrame, hpp]
  exact hasFrameAux_eq_any s pp.frames (ppFramesOk_mem hwf)

theorem shouldIgnore_eq_ppIgnored {r : Report} {i : Nat} {pp : ProgramPoint}
    (hpp : r.programPoints[i]? = some pp) (hwf : ppFramesOk r pp = true) (ks : List String) :
    shouldIgnore r i ks = Except.ok (ppIgnored r pp ks) := by
  induction ks with
  | nil => rfl
  | cons k rest ih =>
    rw [shouldIgnore, programPointHasFrame_eq_any hpp hwf k]
    cases hc : (pp.frames.any fun f => strContains (resolveD r f) k) with
    | true => simp [ppIgnored, List.any_cons, hc]
    | false => simp [ppIgnored, List.any_cons, hc, ih]

theorem mapFrames_eq_map {r : Report} (fs : List Int)
    (h : ∀ f ∈ fs, resolvesOk r f = true) :
    mapFrames r fs = Except.ok (fs.map (resolveD r)) := by
  induction fs with
  | nil => rfl
  | cons f rest ih =>
    rw [mapFrames, getFrame_eq_of_resolvesOk (h f (List.mem_cons_self f rest)),
      ih (fun g hg => h g (List.mem_cons_of_mem f hg))]
    simp

theorem renderSite_eq_siteLinesD {r : Report} {pp : ProgramPoint}
    (hwf : ppFramesOk r pp = true) (htmlMode : Bool) (c : Nat) :
    renderSite r htmlMode c pp = Except.ok (siteLinesD r htmlMode c pp) := by
  have h : ∀ f ∈ pp.frames.reverse, resolvesOk r f = true := by
    intro f hf
    exact ppFramesOk_mem hwf f (List.mem_reverse.mp hf)
  rw [renderSite, mapFrames_eq_map pp.frames.reverse h]
  rfl

theorem ppIgnored_eq_true_iff {r : Report} {pp : ProgramPoint} {ks : List String}
    (hwf : ppFramesOk r pp = true) :
    ppIgnored r pp ks = true ↔
      ∃ k ∈ ks, ∃ f ∈ pp.frames, ∃ sym,
        getFrame r f = Except.ok sym ∧ strContains sym k = true := by
  unfold ppIgnored
  rw [List.any_eq_true]
  constructor
  · rintro ⟨k, hk, hany⟩
    rw [List.any_eq_true] at hany
    obtain ⟨f, hf, hc⟩ := hany
    exact ⟨k, hk, f, hf, resolveD r f,
      getFrame_eq_of_resolvesOk (ppFramesOk_mem hwf f hf), hc⟩
  · rintro ⟨k, hk, f, hf, sym, hg, hc⟩
    refine ⟨k, hk, ?_⟩
    rw [List.any_eq_true]
    refine ⟨f, hf, ?_⟩
    have heq := getFrame_eq_of_resolvesOk (ppFramesOk_mem hwf f hf)
    rw [hg] at heq
    injection heq with h2
    rw [h2] at hc
    exact hc

theorem shouldIgnore_ok_true_iff {r : Report} {i : Nat} {pp : ProgramPoint}
    (hpp : r.programPoints[i]? = some pp) (hwf : ppFramesOk r pp = true) (ks : List String) :
    shouldIgnore r i ks = Except.ok true ↔
      ∃ k ∈ ks, ∃ f ∈ pp.frames, ∃ sym,
        getFrame r f = Except.ok sym ∧ strContains sym k = true := by
  rw [shouldIgnore_eq_ppIgnored hpp hwf ks]
  constructor
  · intro h
    injection h with h2
    exact (ppIgnored_eq_true_iff hwf).mp h2
  · intro h
    rw [(ppIgnored_eq_true_iff hwf).mpr h]

theorem renderSitesAux_eq (r : Report) (htmlMode : Bool) (ks : List String)
    (ps : List (Nat × ProgramPoint)) (c : Nat)
    (h : ∀ p ∈ ps, r.programPoints[p.1]? = some p.2 ∧ ppFramesOk r p.2 = true) :
    renderSitesAux r htmlMode ks c ps =
      Except.ok ((((keptSites r ks ps).enumFrom c).map
        fun q => siteLinesD r htmlMode q.1 q.2.2).flatten) := by
  induction ps generalizing c with
  | nil => rfl
  | cons p rest ih =>
    obtain ⟨i, pp⟩ := p
    obtain ⟨hpp, hwf⟩ := h (i, pp) (List.mem_cons_self (i, pp) rest)
    have hrest : ∀ q ∈ rest, r.programPoints[q.1]? = some q.2 ∧ ppFramesOk r q.2 = true :=
      fun q hq => h q (List.mem_cons_of_mem (i, pp) hq)
    rw [renderSitesAux, shouldIgnore_eq_ppIgnored hpp hwf ks]
    cases hign : ppIgnored r pp ks with
    | true =>
      rw [ih c hrest]
      simp [keptSites, List.filter_cons, hign]
    | false =>
      rw [renderSite_eq_siteLinesD hwf htmlMode c, ih (c + 1) hrest]
      simp [keptSites, List.filter_cons, hign, List.enumFrom_cons]

theorem mem_of_lookup {α : Type} {l : List α} {i : Nat} {a : α} (h : l[i]? = some a) :
    a ∈ l := by
  obtain ⟨hlt, hget⟩ := List.getElem?_eq_some.mp h
  exact hget ▸ List.getElem_mem hlt

theorem matchesAt_self_append (xs ys : List Char) : matchesAt xs (xs ++ ys) = true := by
  induction xs with
  | nil => rfl
  | cons a as ih => simp [matchesAt, ih]

theorem containsSub_of_matchesAt {n h : List Char} (hm : matchesAt n h = true) :
    containsSub n h = true := by
  cases h with
  | nil => simpa [containsSub] using hm
  | cons c rest => simp [containsSub, hm]

theorem containsSub_middle (pre mid post : List Char) :
    containsSub mid (pre ++ (mid ++ post)) = true := by
  induction pre with
  | nil => exact containsSub_of_matchesAt (matchesAt_self_append mid post)
  | cons c rest ih => simp [containsSub, ih]

theorem strContains_middle (pre mid post : String) :
    strContains (pre ++ mid ++ post) mid = true := by
  unfold strContains
  rw [String.append_assoc, String.data_append, String.data_append]
  exact containsSub_middle pre.data mid.data post.data

theorem ignoreLinesLoop_eq_filter (ls : List String) :
    ignoreLinesLoop ls =
      (ls.map trimLine).filter fun l => !(l == "") && !(firstCharIsHash l) := by
  induction ls with
  | nil => rfl
  | cons l rest ih =>
    simp only [ignoreLinesLoop, List.map_cons, List.filter_cons]
    by_cases h1 : trimLine l = ""
    · simp [h1, ih]
    · by_cases h2 : firstCharIsHash (trimLine l)
      · simp [h1, h2, ih]
      · simp [h1, h2, ih]

/-! ### The claims -/

/-- C1: shouldIgnore(report, siteIndex, keywords) returns true if and only
if some keyword in the list is contained (case-sensitive, unanchored
substring) in some resolved frame of the site's frame list.  The keyword
and frame iteration order with its short-circuiting is fixed by the
definitions of shouldIgnore and hasFrameAux; the iff is their extensional
content, stated for a site whose frames all resolve. -/
theorem shouldIgnore_iff_keyword_in_frame (r : Report) (i : Nat) (pp : ProgramPoint)
    (ks : List String) (hpp : r.programPoints[i]? = some pp)
    (hwf : ppFramesOk r pp = true) :
    shouldIgnore r i ks = Except.ok true ↔
      ∃ k ∈ ks, ∃ f ∈ pp.frames, ∃ sym,
        getFrame r f = Except.ok sym ∧ strContains sym k = true :=
  shouldIgnore_ok_true_iff hpp hwf ks

/-- Witness for C1 at a concrete report: the keyword "allo" is found in
the resolved frame "alloc" of site 0, and the keyword "xyz" is not. -/
theorem shouldIgnore_iff_keyword_in_frame_witness :
    (∃ k ∈ ["allo"], ∃ f ∈ ppMain.frames, ∃ sym,
      getFrame reportA f = Except.ok sym ∧ strContains sym k = true) ∧
    shouldIgnore reportA 0 ["xyz"] ≠ Except.ok true := by
  constructor
  · exact (shouldIgnore_iff_keyword_in_frame reportA 0 ppMain ["allo"]
      (by decide) (by decide)).mp (by decide)
  · decide

/-- C2, counterexample: on a frame-table entry holding the separator
twice, GetFrame returns the field between the first and the second
occurrence, not the entire substring after the first occurrence that the
claim describes (specResolveFrame). -/
theorem getFrame_cex_not_suffix_after_first_sep :
    getFrame reportCex 0 = Except.ok "a" ∧
    specResolveFrame "x: a: b" = "a: b" ∧
    getFrame reportCex 0 ≠ Except.ok (specResolveFrame "x: a: b") := by
  refine ⟨by decide, by decide, by decide⟩

/-- C2, amended: for an in-bounds index, GetFrame returns the second
field of the table entry split on the separator, i.e. the text between
the first and the second occurrence; this coincides with the entire
substring after the first occurrence exactly when the entry holds the
separator once (no third field). -/
theorem getFrame_second_split_field (r : Report) (i : Nat) (entry p0 p1 : String)
    (ps : List String) (he : r.framesTable[i]? = some entry)
    (hsplit : splitFrameEntry entry = p0 :: p1 :: ps) :
    getFrame r (Int.ofNat i) = Except.ok p1 ∧
    (ps = [] → specResolveFrame entry = p1) := by
  constructor
  · have h0 : ¬(Int.ofNat i < 0) := Int.not_lt.mpr (Int.ofNat_nonneg i)
    simp only [getFrame, if_neg h0, show (Int.ofNat i).toNat = i from rfl, he, hsplit]
  · intro hps
    rw [specResolveFrame, hsplit, hps]
    rfl

/-- Witness for C2's amended claim: the entry of reportCex splits into
three fields and GetFrame yields the middle one. -/
theorem getFrame_second_split_field_witness :
    splitFrameEntry "x: a: b" = ["x", "a", "b"] ∧
    getFrame reportCex (Int.ofNat 0) = Except.ok "a" :=
  ⟨by decide, (getFrame_second_split_field reportCex 0 "x: a: b" "x" "a" ["b"]
    (by decide) (by decide)).1⟩

/-- C10: shouldIgnore is monotone in the keyword list: enlarging the
ignore list can only turn a kept site into an ignored one, never the
reverse. -/
theorem shouldIgnore_monotone (r : Report) (i : Nat) (pp : ProgramPoint)
    (K K' : List String) (hpp : r.programPoints[i]? = some pp)
    (hwf : ppFramesOk r pp = true) (hsub : ∀ k ∈ K, k ∈ K')
    (h : shouldIgnore r i K = Except.ok true) :
    shouldIgnore r i K' = Except.ok true := by
  rw [shouldIgnore_ok_true_iff hpp hwf] at h ⊢
  obtain ⟨k, hk, hrest⟩ := h
  exact ⟨k, hsub k hk, hrest⟩

/-- Witness for C10: the site ignored under ["alloc"] stays ignored
under the larger list ["xyz", "alloc"]. -/
theorem shouldIgnore_monotone_witness :
    shouldIgnore reportA 0 ["xyz", "alloc"] = Except.ok true :=
  shouldIgnore_monotone reportA 0 ppMain ["alloc"] ["xyz", "alloc"]
    (by decide) (by decide) (by decide) (by decide)

/-- C3: on a well-formed report the rendered site output is the
concatenation, in original input order, of exactly the non-ignored
sites, each once; the counters displayed over those sites are the
consecutive numbers 1..N (an ignored site emits nothing and consumes no
counter); with an empty ignore list every program point is kept. -/
theorem renderSites_filtered_in_order (r : Report) (htmlMode : Bool) (ks : List String)
    (hwf : reportOk r = true) :
    renderSites r htmlMode ks =
      Except.ok ((((keptSites r ks r.programPoints.enum).enumFrom 1).map
        fun q => siteLinesD r htmlMode q.1 q.2.2).flatten) ∧
    ((keptSites r ks r.programPoints.enum).enumFrom 1).map Prod.fst =
      List.range' 1 (keptSites r ks r.programPoints.enum).length ∧
    keptSites r [] r.programPoints.enum = r.programPoints.enum := by
  refine ⟨?_, List.enumFrom_map_fst _ _, ?_⟩
  · rw [renderSites]
    apply renderSitesAux_eq
    intro p hp
    have hpp : r.programPoints[p.1]? = some p.2 := List.mem_enum_iff_getElem?.mp hp
    exact ⟨hpp, List.all_eq_true.mp hwf p.2 (mem_of_lookup hpp)⟩
  · apply List.filter_eq_self.mpr
    intro p _
    simp [ppIgnored]

/-- Witness for C3: on reportA with keyword "alloc" the first site is
ignored and the frameless second site is rendered with counter 1. -/
theorem renderSites_filtered_in_order_witness :
    renderSites reportA false ["alloc"] =
      Except.ok ((((keptSites reportA ["alloc"] reportA.programPoints.enum).enumFrom 1).map
        fun q => siteLinesD reportA false q.1 q.2.2).flatten) ∧
    keptSites reportA ["alloc"] reportA.programPoints.enum = [(1, ppNoFrames)] :=
  ⟨(renderSites_filtered_in_order reportA false ["alloc"] (by decide)).1, by decide⟩

/-- C4: the frame lines of a rendered site are emitted in the exact
reverse of the order of the site's fs index list: reversing the emitted
frame sequence yields the resolved (and in HTML mode escaped) frames in
original fs order. -/
theorem renderSite_frames_reversed (r : Report) (pp : ProgramPoint) (htmlMode : Bool)
    (c : Nat) (hwf : ppFramesOk r pp = true) :
    renderSite r htmlMode c pp =
      Except.ok (siteHeaderLines htmlMode c pp ++ emittedFrames r htmlMode pp ++
        siteFooterLines htmlMode) ∧
    (emittedFrames r htmlMode pp).reverse =
      pp.frames.map fun f =>
        if htmlMode then escapeString (resolveD r f) else resolveD r f := by
  refine ⟨renderSite_eq_siteLinesD hwf htmlMode c, ?_⟩
  cases htmlMode with
  | false => simp [emittedFrames, List.map_reverse]
  | true => simp [emittedFrames, List.map_reverse, List.map_map, Function.comp_def]

/-- Witness for C4 at a concrete site: the emitted frames are
["alloc", "main"], whose reverse is the resolved fs order
["main", "alloc"]. -/
theorem renderSite_frames_reversed_witness :
    renderSite reportA false 1 ppMain =
      Except.ok (siteHeaderLines false 1 ppMain ++ emittedFrames reportA false ppMain ++
        siteFooterLines false) ∧
    (emittedFrames reportA false ppMain).reverse =
      ppMain.frames.map fun f =>
        if false then escapeString (resolveD reportA f) else resolveD reportA f :=
  renderSite_frames_reversed reportA ppMain false 1 (by decide)

/-- C5: a report whose version field is not 2 makes the run fail with
the unsupported-version error before any output line is produced, and
the error message names both the found and the required version. -/
theorem runReport_unsupported_version (r : Report) (htmlMode : Bool) (ks : List String)
    (h : r.version ≠ 2) :
    runReport r htmlMode ks = Except.error (RunError.unsupportedVersion r.version 2) ∧
    runErrorMessage (RunError.unsupportedVersion r.version 2) =
      "DHAT report version " ++ toString r.version ++
        " is not supported, only version " ++ toString (2 : Int) ++ " is supported" ∧
    strContains (runErrorMessage (RunError.unsupportedVersion r.version 2))
      (toString r.version) = true ∧
    strContains (runErrorMessage (RunError.unsupportedVersion r.version 2)) "2" = true ∧
    ∀ lines : List String, runReport r htmlMode ks ≠ Except.ok lines := by
  have hcond : r.version ≠ dhatVersion := h
  have hrun : runReport r htmlMode ks =
      Except.error (RunError.unsupportedVersion r.version 2) := by
    rw [runReport, if_pos hcond]
    rfl
  refine ⟨hrun, rfl, ?_, ?_, ?_⟩
  · rw [runErrorMessage]
    rw [String.append_assoc, String.append_assoc]
    exact strContains_middle "DHAT report version " (toString r.version) _
  · rw [runErrorMessage, show toString (2 : Int) = "2" from rfl]
    exact strContains_middle _ "2" _
  · intro lines hlines
    rw [hrun] at hlines
    exact Except.noConfusion hlines

/-- Witness for C5 at version 3: the run fails with the version error. -/
theorem runReport_unsupported_version_witness :
    runReport { baseReport with version := 3 } false [] =
      Except.error (RunError.unsupportedVersion 3 2) ∧
    strContains (runErrorMessage (RunError.unsupportedVersion 3 2)) "3" = true :=
  ⟨(runReport_unsupported_version { baseReport with version := 3 } false [] (by decide)).1,
   (runReport_unsupported_version { baseReport with version := 3 } false [] (by decide)).2.2.1⟩

/-- C6: with an empty path the ignore list is empty; otherwise the
content is split into lines, each line is trimmed of spaces and tabs at
both ends, lines empty after trimming and lines whose first character is
the comment mark are dropped, and the remaining trimmed lines are kept
in file order; the four example lines yield ["foo", "bar"]. -/
theorem parseIgnoreFile_trims_and_filters :
    (∀ c : String, parseIgnoreFile "" c = []) ∧
    (∀ f c : String, f ≠ "" →
      parseIgnoreFile f c =
        (((splitLines c.data).map String.mk).map trimLine).filter
          fun l => !(l == "") && !(firstCharIsHash l)) ∧
    parseIgnoreFile "ig" "  foo  \n#comment\n\nbar" = ["foo", "bar"] := by
  refine ⟨fun c => rfl, fun f c hf => ?_, by decide⟩
  rw [parseIgnoreFile, if_neg hf]
  exact ignoreLinesLoop_eq_filter _

/-- Witness for C6 on a concrete non-empty path and content. -/
theorem parseIgnoreFile_trims_and_filters_witness :
    parseIgnoreFile "ig" " a \n#b\nc" =
      (((splitLines (" a \n#b\nc" : String).data).map String.mk).map trimLine).filter
        (fun l => !(l == "") && !(firstCharIsHash l)) :=
  parseIgnoreFile_trims_and_filters.2.1 "ig" " a \n#b\nc" (by decide)

/-- C7: resolution fails with an IndexError on an out-of-bounds frame
index and with a FormatError when the entry has no second field when
split on the separator; a resolution failure inside a site's rendering
or inside shouldIgnore makes the whole rendering loop return that error
(no per-site recovery), and runReport surfaces it. -/
theorem frameErrors_propagate :
    (∀ (r : Report) (f : Int), (f < 0 ∨ r.framesTable.length ≤ f.toNat) →
      getFrame r f = Except.error (FrameError.indexError f)) ∧
    (∀ (r : Report) (f : Int) (entry : String), 0 ≤ f →
      r.framesTable[f.toNat]? = some entry → (splitFrameEntry entry).length ≤ 1 →
      getFrame r f = Except.error (FrameError.formatError entry)) ∧
    (∀ (r : Report) (htmlMode : Bool) (ks : List String) (c i : Nat)
      (pp : ProgramPoint) (rest : List (Nat × ProgramPoint)) (e : FrameError),
      shouldIgnore r i ks = Except.ok false →
      renderSite r htmlMode c pp = Except.error e →
      renderSitesAux r htmlMode ks c ((i, pp) :: rest) = Except.error e) ∧
    (∀ (r : Report) (htmlMode : Bool) (ks : List String) (c i : Nat)
      (pp : ProgramPoint) (rest : List (Nat × ProgramPoint)) (e : FrameError),
      shouldIgnore r i ks = Except.error e →
      renderSitesAux r htmlMode ks c ((i, pp) :: rest) = Except.error e) ∧
    (∀ (r : Report) (htmlMode : Bool) (ks : List String) (e : FrameError),
      r.version = 2 → renderSites r htmlMode ks = Except.error e →
      runReport r htmlMode ks = Except.error (RunError.frame e)) := by
  refine ⟨?_, ?_, ?_, ?_, ?_⟩
  · intro r f hf
    rcases hf with hneg | hlen
    · rw [getFrame, if_pos hneg]
    · by_cases hneg : f < 0
      · rw [getFrame, if_pos hneg]
      · simp only [getFrame, if_neg hneg, List.getElem?_eq_none hlen]
  · intro r f entry h0 hentry hlen
    have hneg : ¬(f < 0) := Int.not_lt.mpr h0
    rcases hs : splitFrameEntry entry with _ | ⟨a, tail⟩
    · simp only [getFrame, if_neg hneg, hentry, hs]
    · rcases tail with _ | ⟨b, tail2⟩
      · simp only [getFrame, if_neg hneg, hentry, hs]
      · rw [hs] at hlen
        simp at hlen
  · intro r htmlMode ks c i pp rest e hig hsite
    simp only [renderSitesAux, hig, hsite]
  · intro r htmlMode ks c i pp rest e hig
    simp only [renderSitesAux, hig]
  · intro r htmlMode ks e hv hr
    have hne : ¬(r.version ≠ dhatVersion) := by
      rw [hv]
      simp [dhatVersion]
    simp only [runReport, if_neg hne, hr]

/-- Witness for C7 on a report whose only frame-table entry lacks the
separator: both error kinds arise and the format error propagates
through the loop and the run. -/
theorem frameErrors_propagate_witness :
    getFrame reportBad 5 = Except.error (FrameError.indexError 5) ∧
    getFrame reportBad 0 = Except.error (FrameError.formatError "nosep") ∧
    renderSitesAux reportBad false [] 1 [(0, ppBad)] =
      Except.error (FrameError.formatError "nosep") ∧
    renderSitesAux reportBad false ["x"] 1 [(0, ppBad)] =
      Except.error (FrameError.formatError "nosep") ∧
    runReport reportBad false [] =
      Except.error (RunError.frame (FrameError.formatError "nosep")) :=
  ⟨frameErrors_propagate.1 reportBad 5 (by decide),
   frameErrors_propagate.2.1 reportBad 0 "nosep" (by decide) (by decide) (by decide),
   frameErrors_propagate.2.2.1 reportBad false [] 1 0 ppBad []
     (FrameError.formatError "nosep") (by decide) (by decide),
   frameErrors_propagate.2.2.2.1 reportBad false ["x"] 1 0 ppBad []
     (FrameError.formatError "nosep") (by decide),
   frameErrors_propagate.2.2.2.2 reportBad false []
     (FrameError.formatError "nosep") (by decide) (by decide)⟩

/-- C8: in HTML mode every emitted frame line is the escapeString image
of the resolved frame (with the angle-bracket, ampersand and quote
characters replaced), and in text mode the resolved frame is written
verbatim; the example symbol renders as claimed. -/
theorem renderSite_html_escapes_text_verbatim (r : Report) (pp : ProgramPoint) (c : Nat)
    (hwf : ppFramesOk r pp = true) :
    renderSite r true c pp =
      Except.ok (siteHeaderLines true c pp ++
        ((pp.frames.reverse.map fun f => resolveD r f).map escapeString) ++
        siteFooterLines true) ∧
    renderSite r false c pp =
      Except.ok (siteHeaderLines false c pp ++
        (pp.frames.reverse.map fun f => resolveD r f) ++ siteFooterLines false) ∧
    escapeString "a<b>c" = "a&lt;b&gt;c" ∧
    escapeChar '<' = "&lt;" ∧ escapeChar '>' = "&gt;" ∧ escapeChar '&' = "&amp;" ∧
    escapeChar '"' = "&#34;" ∧ escapeChar '\'' = "&#39;" := by
  refine ⟨?_, ?_, by decide, by decide, by decide, by decide, by decide, by decide⟩
  · rw [renderSite_eq_siteLinesD hwf true c]
    rfl
  · rw [renderSite_eq_siteLinesD hwf false c]
    rfl

/-- Witness for C8 on a report whose frame symbol is a<b>c. -/
theorem renderSite_html_escapes_text_verbatim_witness :
    renderSite { baseReport with framesTable := ["at: a<b>c"] } true 1 ppBad =
      Except.ok (siteHeaderLines true 1 ppBad ++
        ((ppBad.frames.reverse.map
          fun f => resolveD { baseReport with framesTable := ["at: a<b>c"] } f).map
            escapeString) ++ siteFooterLines true) ∧
    escapeString "a<b>c" = "a&lt;b&gt;c" :=
  ⟨(renderSite_html_escapes_text_verbatim { baseReport with framesTable := ["at: a<b>c"] }
      ppBad 1 (by decide)).1,
   (renderSite_html_escapes_text_verbatim { baseReport with framesTable := ["at: a<b>c"] }
      ppBad 1 (by decide)).2.2.1⟩

/-- C9: a site with an empty frame list is never ignored, whatever the
keyword list; it renders with its header and stats lines and no frame
lines; and neither its filtering decision nor its rendering depends on
the frame table at all. -/
theorem emptyFrames_never_ignored (r : Report) (i : Nat) (pp : ProgramPoint)
    (ks : List String) (htmlMode : Bool) (c : Nat)
    (hpp : r.programPoints[i]? = some pp) (hframes : pp.frames = []) :
    shouldIgnore r i ks = Except.ok false ∧
    renderSite r htmlMode c pp =
      Except.ok (siteHeaderLines htmlMode c pp ++ siteFooterLines htmlMode) ∧
    (∀ ft : List String,
      renderSite { r with framesTable := ft } htmlMode c pp = renderSite r htmlMode c pp) ∧
    (∀ ft : List String,
      shouldIgnore { r with framesTable := ft } i ks = Except.ok false) := by
  have hsite : ∀ r2 : Report, renderSite r2 htmlMode c pp =
      Except.ok (siteHeaderLines htmlMode c pp ++ siteFooterLines htmlMode) := by
    intro r2
    simp [renderSite, hframes, mapFrames]
  have hignore : ∀ r2 : Report, r2.programPoints[i]? = some pp →
      shouldIgnore r2 i ks = Except.ok false := by
    intro r2 hpp2
    have hwf2 : ppFramesOk r2 pp = true := by simp [ppFramesOk, hframes]
    rw [shouldIgnore_eq_ppIgnored hpp2 hwf2 ks]
    simp [ppIgnored, hframes]
  refine ⟨hignore r hpp, hsite r, fun ft => ?_, fun ft => ?_⟩
  · rw [hsite { r with framesTable := ft }, hsite r]
  · exact hignore { r with framesTable := ft } hpp

/-- Witness for C9: the frameless second site of reportA passes every
filter and renders with no frame lines. -/
theorem emptyFrames_never_ignored_witness :
    shouldIgnore reportA 1 ["alloc", "main", "anything"] = Except.ok false ∧
    renderSite reportA false 1 ppNoFrames =
      Except.ok (siteHeaderLines false 1 ppNoFrames ++ siteFooterLines false) :=
  ⟨(emptyFrames_never_ignored reportA 1 ppNoFrames ["alloc", "main", "anything"] false 1
      (by decide) (by decide)).1,
   (emptyFrames_never_ignored reportA 1 ppNoFrames ["alloc", "main", "anything"] false 1
      (by decide) (by decide)).2.1⟩

end Dhatless
